import Mathlib

/-!
Shallow embedding of `hello_spi/spi_rom.py` (nMigen `SPI_ROM` module).

The module is a single synchronous state machine.  Registered signals
(`m.d.sync`) become fields of `SpiRom` updated once per tick by `step`;
combinational outputs (`spio`, `mosi`) are pure functions of the current
state and the current bus inputs.  Machine integers are `Nat` with the
register widths enforced by `% 32` (the 5-bit counter `dc`) and `% 2^32`
(the 32-bit `dat_r` register) at the points where the RTL truncates.
-/

namespace SpiRom

/-- The five FSM states of `SPI_ROM.elaborate`. -/
inductive FsmState where
  | RESET | POWERUP | WAITING | TX | RX
deriving DecidableEq, Repr

/-- Registered state of the module: FSM state, `spi.cs.o`, the 5-bit
counter `dc`, the Wishbone `ack` register and the 32-bit `dat_r` register. -/
structure St where
  state : FsmState
  cs    : Bool
  dc    : Nat
  ack   : Bool
  dat_r : Nat
deriving DecidableEq, Repr

/-- Bus-side and SPI-side inputs sampled on one tick: Wishbone `adr`,
`cyc`, `stb`, and the `miso` line driven by the flash device. -/
structure BusIn where
  adr  : Nat
  cyc  : Bool
  stb  : Bool
  miso : Bool
deriving DecidableEq, Repr

/-- Reset values of all registers; the FSM starts in `SPI_RESET`. -/
def initState : St := ⟨.RESET, false, 0, false, 0⟩

/-- Combinational command word (line 58):
`spio = 0x03000000 | ((adr + dstart) & 0x00FFFFFF)`. -/
def spio (dstart adr : Nat) : Nat :=
  0x03000000 ||| ((adr + dstart) &&& 0x00FFFFFF)

/-- Combinational `spi.mosi.o` output (1 bit).  In `SPI_POWERUP` it is
`0xAB >> (7 - dc)` (line 78, meaningful while `dc ≤ 7`); in `SPI_TX` it is
`spio >> dc` (line 112); elsewhere the comb default 0. -/
def mosi (dstart : Nat) (s : St) (i : BusIn) : Nat :=
  match s.state with
  | .POWERUP => (0xAB >>> (7 - s.dc)) % 2
  | .TX      => (spio dstart i.adr >>> s.dc) % 2
  | _        => 0

/-- One synchronous tick of the FSM (lines 66-152).  Each branch applies
exactly the `m.d.sync` assignments of the active state, later assignments
overriding earlier ones, and `m.next` selects the next state. -/
def step (dstart : Nat) (s : St) (i : BusIn) : St :=
  match s.state with
  | .RESET => { s with cs := true, state := .POWERUP }
  | .POWERUP =>
    if s.dc == 30 then
      { s with dc := (s.dc + 1) % 32, cs := false, state := .WAITING }
    else if 8 ≤ s.dc then
      { s with dc := (s.dc + 1) % 32, cs := false, state := .POWERUP }
    else
      { s with dc := (s.dc + 1) % 32, state := .POWERUP }
  | .WAITING =>
    if i.cyc && i.stb && !s.ack then
      { s with cs := true, ack := false, dc := 31, state := .TX }
    else
      { s with ack := i.cyc && (s.ack && i.stb), cs := false, state := .WAITING }
  | .TX =>
    if s.dc == 0 then
      { s with dc := 7, dat_r := 0, state := .RX }
    else
      { s with dc := (s.dc + 31) % 32, state := .TX }
  | .RX =>
    let dr := (s.dat_r ||| ((if i.miso then 1 else 0) <<< s.dc)) % 2 ^ 32
    if s.dc % 8 == 0 then
      if (s.dc >>> 3) % 4 == 3 then
        { s with dc := (s.dc + 31) % 32, dat_r := dr, cs := false,
                 ack := i.cyc, state := .WAITING }
      else
        { s with dc := (s.dc + 15) % 32, dat_r := dr, state := .RX }
    else
      { s with dc := (s.dc + 31) % 32, dat_r := dr, state := .RX }

/-- A word of the simulation-only backing `Memory` (32-bit words). -/
def memRead (data : List Nat) (j : Nat) : Nat :=
  data.getD j 0 % 2 ^ 32

/-- One tick of the simulated closed loop (platform `None`): the `miso`
input is driven combinationally by
`(data[adr >> 2] >> dc) & 1` (line 133). -/
def stepSim (dstart : Nat) (data : List Nat) (s : St) (i : BusIn) : St :=
  step dstart s { i with miso := (memRead data (i.adr >>> 2) >>> s.dc) &&& 1 == 1 }

/-- `n` simulated ticks with the bus inputs held constant. -/
def runSim (dstart : Nat) (data : List Nat) : Nat → St → BusIn → St
  | 0, s, _ => s
  | n + 1, s, i => runSim dstart data n (stepSim dstart data s i) i

/-- `n` ticks of the bare machine under an arbitrary input sequence. -/
def runSeq (dstart : Nat) (ins : Nat → BusIn) : Nat → St → St
  | 0, s => s
  | n + 1, s => runSeq dstart (fun k => ins (k + 1)) n (step dstart s (ins 0))

/-- The values taken by the counter `dc` on `n` successive simulated ticks. -/
def dcTrace (dstart : Nat) (data : List Nat) : Nat → St → BusIn → List Nat
  | 0, _, _ => []
  | n + 1, s, i => s.dc :: dcTrace dstart data n (stepSim dstart data s i) i

/-- The sequence of counter values over the 32 `SPI_RX` ticks, starting
from the value 7 loaded on leaving `SPI_TX`: bits 7..0, 15..8, 23..16,
31..24 (per-byte MSB-first, bytes in little-endian order). -/
def dcSeq : List Nat :=
  [7, 6, 5, 4, 3, 2, 1, 0, 15, 14, 13, 12, 11, 10, 9, 8,
   23, 22, 21, 20, 19, 18, 17, 16, 31, 30, 29, 28, 27, 26, 25, 24]

/-- OR-accumulation of the bits of `w` at the positions of `l`, exactly as
the `SPI_RX` body accumulates `dat_r` in the simulated loop. -/
def orAcc (w : Nat) : List Nat → Nat → Nat
  | [], a => a
  | p :: l, a =>
      orAcc w l ((a ||| ((if (w >>> p) &&& 1 == 1 then 1 else 0) <<< p)) % 2 ^ 32)

theorem bitv_eq (w p : Nat) : ((w >>> p) &&& 1 == 1) = w.testBit p := by
  rw [Nat.testBit_to_div_mod, Nat.and_one_is_mod, Nat.shiftRight_eq_div_pow]
  by_cases h : w / 2 ^ p % 2 = 1 <;> simp [h]

theorem orAcc_testBit (w : Nat) : ∀ (l : List Nat) (a : Nat), a < 2 ^ 32 →
    (∀ p ∈ l, p < 32) → ∀ j,
    (orAcc w l a).testBit j = (a.testBit j || (decide (j ∈ l) && w.testBit j))
  | [], a, _, _, j => by simp [orAcc]
  | p :: l, a, ha, hl, j => by
    rw [orAcc, orAcc_testBit w l _ (Nat.mod_lt _ (by norm_num))
        (fun q hq => hl q (List.mem_cons_of_mem _ hq)) j]
    have hp : p < 32 := hl p (List.mem_cons_self _ _)
    rw [bitv_eq]
    by_cases hj : j < 32
    · have hbit : (if w.testBit p then (1 : Nat) else 0) <<< p = if w.testBit p then 2 ^ p else 0 := by
        by_cases h : w.testBit p <;> simp [h, Nat.one_shiftLeft]
      rw [hbit]
      by_cases h : w.testBit p
      · simp only [h, if_true]
        rw [Nat.testBit_mod_two_pow, Nat.testBit_or, Nat.testBit_two_pow]
        simp only [List.mem_cons, decide_eq_true_eq, hj, decide_True, Bool.true_and]
        by_cases hpj : p = j
        · subst hpj; simp [h]
        · have : ¬ (j = p) := fun hh => hpj hh.symm
          simp [hpj, this]
      · have hz : (if w.testBit p = true then (2 : Nat) ^ p else 0) = 0 := by simp [h]
        rw [hz, Nat.or_zero, Nat.testBit_mod_two_pow]
        simp only [List.mem_cons, hj, decide_True, Bool.true_and]
        by_cases hpj : j = p
        · subst hpj; simp [h]
        · simp [hpj]
    · have hja : a.testBit j = false :=
        Nat.testBit_lt_two_pow (lt_of_lt_of_le ha
          (Nat.pow_le_pow_right (by norm_num) (by omega)))
      have hmc : ¬ j ∈ p :: l := fun hmem => by
        have := hl j hmem; omega
      have hml : ¬ j ∈ l := fun hmem => hmc (List.mem_cons_of_mem _ hmem)
      rw [Nat.testBit_mod_two_pow]
      simp [hj, hja, hmc, hml]

theorem orAcc_dcSeq (w : Nat) (hw : w < 2 ^ 32) : orAcc w dcSeq 0 = w := by
  apply Nat.eq_of_testBit_eq
  intro j
  rw [orAcc_testBit w dcSeq 0 (by norm_num) (by decide) j]
  simp only [Nat.zero_testBit, Bool.false_or]
  by_cases hj : j < 32
  · have hm : j ∈ dcSeq := by interval_cases j <;> decide
    simp [hm]
  · have hm : ¬ j ∈ dcSeq := fun hmem => by fin_cases hmem <;> omega
    have hw2 : w.testBit j = false :=
      Nat.testBit_lt_two_pow (lt_of_lt_of_le hw
        (Nat.pow_le_pow_right (by norm_num) (by omega)))
    simp [hm, hw2]

theorem runSim_succ_eq (dstart : Nat) (data : List Nat) (n : Nat) (s : St) (i : BusIn) :
    runSim dstart data (n + 1) s i = runSim dstart data n (stepSim dstart data s i) i := rfl

theorem runSim_zero_eq (dstart : Nat) (data : List Nat) (s : St) (i : BusIn) :
    runSim dstart data 0 s i = s := rfl

theorem runSim_add (dstart : Nat) (data : List Nat) (m n : Nat) (s : St) (i : BusIn) :
    runSim dstart data (m + n) s i = runSim dstart data n (runSim dstart data m s i) i := by
  induction m generalizing s with
  | zero => simp [runSim_zero_eq]
  | succ k ih =>
      have h : k + 1 + n = (k + n) + 1 := by omega
      rw [h, runSim_succ_eq, runSim_succ_eq, ih]

theorem dcTrace_succ_eq (dstart : Nat) (data : List Nat) (n : Nat) (s : St) (i : BusIn) :
    dcTrace dstart data (n + 1) s i =
      s.dc :: dcTrace dstart data n (stepSim dstart data s i) i := rfl

theorem dcTrace_zero_eq (dstart : Nat) (data : List Nat) (s : St) (i : BusIn) :
    dcTrace dstart data 0 s i = [] := rfl

/-- `SPI_RX` mid-byte tick: the counter's low 3 bits are nonzero, so it
just decrements while a bit is OR-ed into `dat_r` at position `dc`. -/
theorem stepSim_rx_mid (dstart : Nat) (data : List Nat) (adr a dc : Nat)
    (cyc stb m cs ack : Bool) (h8 : dc % 8 ≠ 0) (h32 : dc < 32) :
    stepSim dstart data ⟨.RX, cs, dc, ack, a⟩ ⟨adr, cyc, stb, m⟩ =
      ⟨.RX, cs, dc - 1, ack,
        (a ||| ((if (memRead data (adr >>> 2) >>> dc) &&& 1 == 1 then 1 else 0) <<< dc))
          % 2 ^ 32⟩ := by
  have h1 : (dc % 8 == 0) = false := by simp [h8]
  simp [stepSim, step, h1]
  omega

/-- `SPI_RX` byte-boundary tick before the last byte: the counter is
rewound by 15 (line 149). -/
theorem stepSim_rx_rewind (dstart : Nat) (data : List Nat) (adr a dc : Nat)
    (cyc stb m cs ack : Bool) (h8 : dc % 8 = 0) (h34 : (dc >>> 3) % 4 ≠ 3)
    (h32 : dc < 32) :
    stepSim dstart data ⟨.RX, cs, dc, ack, a⟩ ⟨adr, cyc, stb, m⟩ =
      ⟨.RX, cs, dc + 15, ack,
        (a ||| ((if (memRead data (adr >>> 2) >>> dc) &&& 1 == 1 then 1 else 0) <<< dc))
          % 2 ^ 32⟩ := by
  have h1 : (dc % 8 == 0) = true := by simp [h8]
  have h2 : ((dc >>> 3) % 4 == 3) = false := by simp [h34]
  have h3 : dc >>> 3 = dc / 8 := Nat.shiftRight_eq_div_pow dc 3
  simp [stepSim, step, h1, h2]
  rw [h3] at h34
  omega

/-- Final `SPI_RX` tick (`dc = 24`): the word is complete, `cs` is
cleared, `ack` is loaded from `cyc` and the FSM returns to `SPI_WAITING`. -/
theorem stepSim_rx_done (dstart : Nat) (data : List Nat) (adr a : Nat)
    (cyc stb m cs ack : Bool) :
    stepSim dstart data ⟨.RX, cs, 24, ack, a⟩ ⟨adr, cyc, stb, m⟩ =
      ⟨.WAITING, false, 23, cyc,
        (a ||| ((if (memRead data (adr >>> 2) >>> 24) &&& 1 == 1 then 1 else 0) <<< 24))
          % 2 ^ 32⟩ := by
  simp [stepSim, step]

/-- The 32 `SPI_RX` ticks, entered with `dc = 7` and `dat_r = 0`, end in
`SPI_WAITING` having OR-accumulated one sampled bit per tick at the
positions `dcSeq`, with `ack` loaded from `cyc` and `cs` cleared. -/
theorem rx_run_eq (dstart : Nat) (data : List Nat) (adr : Nat)
    (cyc stb m cs ack : Bool) :
    runSim dstart data 32 ⟨.RX, cs, 7, ack, 0⟩ ⟨adr, cyc, stb, m⟩ =
      ⟨.WAITING, false, 23, cyc, orAcc (memRead data (adr >>> 2)) dcSeq 0⟩ := by
  iterate 7 rw [runSim_succ_eq,
    stepSim_rx_mid _ _ _ _ _ _ _ _ _ _ (by norm_num) (by norm_num)]
  rw [runSim_succ_eq,
    stepSim_rx_rewind _ _ _ _ _ _ _ _ _ _ (by decide) (by decide) (by decide)]
  iterate 7 rw [runSim_succ_eq,
    stepSim_rx_mid _ _ _ _ _ _ _ _ _ _ (by norm_num) (by norm_num)]
  rw [runSim_succ_eq,
    stepSim_rx_rewind _ _ _ _ _ _ _ _ _ _ (by decide) (by decide) (by decide)]
  iterate 7 rw [runSim_succ_eq,
    stepSim_rx_mid _ _ _ _ _ _ _ _ _ _ (by norm_num) (by norm_num)]
  rw [runSim_succ_eq,
    stepSim_rx_rewind _ _ _ _ _ _ _ _ _ _ (by decide) (by decide) (by decide)]
  iterate 7 rw [runSim_succ_eq,
    stepSim_rx_mid _ _ _ _ _ _ _ _ _ _ (by norm_num) (by norm_num)]
  rw [runSim_succ_eq, stepSim_rx_done, runSim_zero_eq]
  norm_num [orAcc, dcSeq]

/-- The counter values over those 32 ticks are exactly `dcSeq`. -/
theorem rx_trace_eq (dstart : Nat) (data : List Nat) (adr : Nat)
    (cyc stb m cs ack : Bool) :
    dcTrace dstart data 32 ⟨.RX, cs, 7, ack, 0⟩ ⟨adr, cyc, stb, m⟩ = dcSeq := by
  iterate 7 rw [dcTrace_succ_eq,
    stepSim_rx_mid _ _ _ _ _ _ _ _ _ _ (by norm_num) (by norm_num)]
  rw [dcTrace_succ_eq,
    stepSim_rx_rewind _ _ _ _ _ _ _ _ _ _ (by decide) (by decide) (by decide)]
  iterate 7 rw [dcTrace_succ_eq,
    stepSim_rx_mid _ _ _ _ _ _ _ _ _ _ (by norm_num) (by norm_num)]
  rw [dcTrace_succ_eq,
    stepSim_rx_rewind _ _ _ _ _ _ _ _ _ _ (by decide) (by decide) (by decide)]
  iterate 7 rw [dcTrace_succ_eq,
    stepSim_rx_mid _ _ _ _ _ _ _ _ _ _ (by norm_num) (by norm_num)]
  rw [dcTrace_succ_eq,
    stepSim_rx_rewind _ _ _ _ _ _ _ _ _ _ (by decide) (by decide) (by decide)]
  iterate 7 rw [dcTrace_succ_eq,
    stepSim_rx_mid _ _ _ _ _ _ _ _ _ _ (by norm_num) (by norm_num)]
  rw [dcTrace_succ_eq, stepSim_rx_done, dcTrace_zero_eq]
  norm_num [dcSeq]

theorem memRead_lt (data : List Nat) (j : Nat) : memRead data j < 2 ^ 32 := by
  unfold memRead
  exact Nat.mod_lt _ (by norm_num)

/-- `SPI_WAITING` with a pending request (`cyc ∧ stb ∧ ¬ack`): assert `cs`,
load the counter with 31 and move to `SPI_TX`. -/
theorem stepSim_wait_accept (dstart : Nat) (data : List Nat) (dcv r : Nat)
    (cs : Bool) (i : BusIn) (hc : i.cyc = true) (hs : i.stb = true) :
    stepSim dstart data ⟨.WAITING, cs, dcv, false, r⟩ i = ⟨.TX, true, 31, false, r⟩ := by
  simp [stepSim, step, hc, hs]

/-- `SPI_TX` tick with `dc ≠ 0`: the counter decrements, nothing else
changes (the transmitted bit is combinational). -/
theorem stepSim_tx_mid (dstart : Nat) (data : List Nat) (dc r : Nat)
    (cs ack : Bool) (i : BusIn) (h0 : dc ≠ 0) (h32 : dc < 32) :
    stepSim dstart data ⟨.TX, cs, dc, ack, r⟩ i = ⟨.TX, cs, dc - 1, ack, r⟩ := by
  have h1 : (dc == 0) = false := by simp [h0]
  simp [stepSim, step, h1]
  omega

/-- Final `SPI_TX` tick (`dc = 0`): load the counter with 7, clear `dat_r`
and move to `SPI_RX`. -/
theorem stepSim_tx_done (dstart : Nat) (data : List Nat) (r : Nat)
    (cs ack : Bool) (i : BusIn) :
    stepSim dstart data ⟨.TX, cs, 0, ack, r⟩ i = ⟨.RX, cs, 7, ack, 0⟩ := by
  simp [stepSim, step]

/-- From `SPI_WAITING` with no pending `ack` and the request lines held,
33 ticks (1 to accept + 32 to shift the 32 command bits) reach `SPI_RX`
with `dc = 7` and `dat_r = 0`. -/
theorem tx_entry_run (dstart : Nat) (data : List Nat) (adr dcv r : Nat)
    (cs m : Bool) :
    runSim dstart data 33 ⟨.WAITING, cs, dcv, false, r⟩ ⟨adr, true, true, m⟩ =
      ⟨.RX, true, 7, false, 0⟩ := by
  rw [runSim_succ_eq, stepSim_wait_accept _ _ _ _ _ _ rfl rfl]
  iterate 31 rw [runSim_succ_eq,
    stepSim_tx_mid _ _ _ _ _ _ _ (by norm_num) (by norm_num)]
  rw [runSim_succ_eq, stepSim_tx_done, runSim_zero_eq]

/-- A whole accepted transaction: with the request lines held, 65 ticks
from `SPI_WAITING` return to `SPI_WAITING` with `ack` set and `dat_r`
holding the backing-store word at index `adr >> 2`. -/
theorem full_txn (dstart : Nat) (data : List Nat) (adr dcv r : Nat)
    (cs m : Bool) :
    runSim dstart data 65 ⟨.WAITING, cs, dcv, false, r⟩ ⟨adr, true, true, m⟩ =
      ⟨.WAITING, false, 23, true, memRead data (adr >>> 2)⟩ := by
  have h65 : (65 : Nat) = 33 + 32 := by norm_num
  rw [h65, runSim_add, tx_entry_run, rx_run_eq,
    orAcc_dcSeq _ (memRead_lt data (adr >>> 2))]

theorem rx_word (dstart : Nat) (data : List Nat) (adr : Nat)
    (cyc stb m cs ack : Bool) :
    (runSim dstart data 32 ⟨.RX, cs, 7, ack, 0⟩ ⟨adr, cyc, stb, m⟩).dat_r =
      memRead data (adr >>> 2) := by
  rw [rx_run_eq]
  exact orAcc_dcSeq _ (Nat.mod_lt _ (by norm_num))

/-- While `j ≤ dc`, `j` ticks of `SPI_TX` only decrement the counter. -/
theorem tx_run (dstart : Nat) (data : List Nat) (i : BusIn) :
    ∀ (j dc : Nat) (cs ack : Bool) (r : Nat), j ≤ dc → dc < 32 →
    runSim dstart data j ⟨.TX, cs, dc, ack, r⟩ i = ⟨.TX, cs, dc - j, ack, r⟩
  | 0, dc, cs, ack, r, _, _ => by rw [runSim_zero_eq]; simp
  | j + 1, dc, cs, ack, r, hj, hdc => by
    have h0 : dc ≠ 0 := by omega
    rw [runSim_succ_eq, stepSim_tx_mid _ _ _ _ _ _ _ h0 hdc,
      tx_run dstart data i j (dc - 1) cs ack r (by omega) (by omega)]
    have h : dc - 1 - j = dc - (j + 1) := by omega
    rw [h]

/-- Fewer ticks than remain of the `SPI_RX` phase leave `ack` low and the
FSM in `SPI_RX`. -/
theorem rx_ack_false (dstart : Nat) (data : List Nat) (adr : Nat)
    (cyc stb m : Bool) :
    ∀ (j dc : Nat) (cs : Bool) (a : Nat), dc < 32 →
    j < dc % 8 + 8 * (3 - dc / 8) + 1 →
    (runSim dstart data j ⟨.RX, cs, dc, false, a⟩ ⟨adr, cyc, stb, m⟩).ack = false ∧
    (runSim dstart data j ⟨.RX, cs, dc, false, a⟩ ⟨adr, cyc, stb, m⟩).state = .RX
  | 0, dc, cs, a, _, _ => ⟨rfl, rfl⟩
  | j + 1, dc, cs, a, hdc, hj => by
    by_cases h8 : dc % 8 = 0
    · by_cases h34 : dc / 8 = 3
      · exfalso; omega
      · have hq : dc / 8 < 4 := by omega
        have hsr : (dc >>> 3) % 4 ≠ 3 := by
          rw [Nat.shiftRight_eq_div_pow]
          have e : (2 : Nat) ^ 3 = 8 := by norm_num
          rw [e]
          omega
        rw [runSim_succ_eq, stepSim_rx_rewind _ _ _ _ _ _ _ _ _ _ h8 hsr hdc]
        exact rx_ack_false dstart data adr cyc stb m j (dc + 15) cs _
          (by omega) (by omega)
    · rw [runSim_succ_eq, stepSim_rx_mid _ _ _ _ _ _ _ _ _ _ h8 hdc]
      exact rx_ack_false dstart data adr cyc stb m j (dc - 1) cs _
        (by omega) (by omega)

/-- `ack` stays low on every tick strictly before the 65 needed to finish
an accepted transaction. -/
theorem txn_ack_false (dstart : Nat) (data : List Nat) (adr dcv r : Nat)
    (cs m : Bool) :
    ∀ k, k < 65 →
    (runSim dstart data k ⟨.WAITING, cs, dcv, false, r⟩ ⟨adr, true, true, m⟩).ack
      = false := by
  intro k hk
  rcases Nat.lt_or_ge k 1 with h1 | h1
  · interval_cases k
    rfl
  · rcases Nat.lt_or_ge k 33 with h2 | h2
    · have hs : k = 1 + (k - 1) := by omega
      rw [hs, runSim_add, runSim_succ_eq, runSim_zero_eq,
        stepSim_wait_accept _ _ _ _ _ _ rfl rfl,
        tx_run _ _ _ (k - 1) 31 _ _ _ (by omega) (by norm_num)]
    · have hs : k = 33 + (k - 33) := by omega
      rw [hs, runSim_add, tx_entry_run]
      exact (rx_ack_false dstart data adr true true m (k - 33) 7 true 0
        (by norm_num) (by omega)).1

/-- The command word splits as the read opcode 3 in bits 31..24 above the
24-bit masked device address. -/
theorem spio_split (dstart adr : Nat) :
    spio dstart adr = 2 ^ 24 * 3 + (adr + dstart) % 2 ^ 24 := by
  unfold spio
  have hy : (adr + dstart) &&& 0x00FFFFFF = (adr + dstart) % 2 ^ 24 := by
    have h : (0x00FFFFFF : Nat) = 2 ^ 24 - 1 := by norm_num
    rw [h, Nat.and_pow_two_sub_one_eq_mod]
  rw [hy]
  have h3 : (0x03000000 : Nat) = 2 ^ 24 * 3 := by norm_num
  rw [h3]
  have hmlt : (adr + dstart) % 2 ^ 24 < 2 ^ 24 := Nat.mod_lt _ (by norm_num)
  apply Nat.eq_of_testBit_eq
  intro j
  rw [Nat.testBit_or, Nat.testBit_mul_pow_two_add _ hmlt j, Nat.testBit_mul_pow_two]
  by_cases hj : j < 24
  · have hge : ¬ (j ≥ 24) := by omega
    simp [hj, hge]
  · have hge : j ≥ 24 := by omega
    have hmf : Nat.testBit ((adr + dstart) % 2 ^ 24) j = false :=
      Nat.testBit_lt_two_pow (lt_of_lt_of_le hmlt
        (Nat.pow_le_pow_right (by norm_num) hge))
    have hd : (decide (j ≥ 24)) = true := by simp [hge]
    rw [if_neg hj, hd, Bool.true_and, hmf, Bool.or_false]

/-- A one-bit wire driven by `x >> n` carries bit `n` of `x`. -/
theorem shift_mod_two_eq (x n : Nat) :
    (x >>> n) % 2 = if x.testBit n then 1 else 0 := by
  rw [Nat.testBit_to_div_mod, Nat.shiftRight_eq_div_pow]
  by_cases h : x / 2 ^ n % 2 = 1
  · simp [h]
  · simp [h]
    omega

/-- The configuration and backing image of the module's own testbench
(`spi_rom.py` main): `start = 0x200000`, nine 32-bit words. -/
def demoStart : Nat := 0x200000

def demoData : List Nat :=
  [0x89ABCDEF, 0x0C0FFEE0, 0xBABABABA, 0xABACADAB, 0xDEADFACE,
   0x12345678, 0x87654321, 0xDEADBEEF, 0xDEADBEEF]

def demoIdle : BusIn := ⟨0, false, false, false⟩

def demoReq (a : Nat) : BusIn := ⟨a, true, true, false⟩

/-- The state on first reaching `SPI_WAITING`: 32 ticks after reset
(1 `SPI_RESET` tick + 31 `SPI_POWERUP` ticks). -/
def demoWait : St := runSim demoStart demoData 32 initState demoIdle

/-- `step` keeps the post-power-up states closed under one tick. -/
theorem step_keeps_main (dstart : Nat) (s : St) (i : BusIn)
    (h : s.state = .WAITING ∨ s.state = .TX ∨ s.state = .RX) :
    (step dstart s i).state = .WAITING ∨ (step dstart s i).state = .TX ∨
    (step dstart s i).state = .RX := by
  rcases s with ⟨st, cs, dc, ack, r⟩
  rcases h with h | h | h <;>
    · have h' := h
      subst h'
      simp only [step]
      split <;> try split
      all_goals simp

theorem runSeq_succ_eq (dstart : Nat) (ins : Nat → BusIn) (n : Nat) (s : St) :
    runSeq dstart ins (n + 1) s =
      runSeq dstart (fun k => ins (k + 1)) n (step dstart s (ins 0)) := rfl

theorem runSeq_zero_eq (dstart : Nat) (ins : Nat → BusIn) (s : St) :
    runSeq dstart ins 0 s = s := rfl

/-! ## Claim theorems -/

set_option maxRecDepth 100000 in
/-- C1 (counterexample): with `strobe` and `cycle` held high after a
satisfied request, `ack` is high on two consecutive ticks (the 65th and
66th after the request), so it is not deasserted on the following tick. -/
theorem spi_c1_counterexample :
    (demoReq 0).cyc = true ∧ (demoReq 0).stb = true ∧
    (runSim demoStart demoData 65 demoWait (demoReq 0)).ack = true ∧
    (runSim demoStart demoData 66 demoWait (demoReq 0)).ack = true := by
  decide

/-- C1 (amended): in `SPI_WAITING` the next value of `ack` is
`cyc & (ack & stb)` (line 97): after a satisfied request `ack` stays
asserted while `cycle` and `strobe` remain high, deasserts the tick after
either is lowered, and stays deasserted until a new request is accepted. -/
theorem spi_c1_ack_handshake (dstart : Nat) (s : St) (i : BusIn)
    (h : s.state = .WAITING) :
    (step dstart s i).ack = (i.cyc && (s.ack && i.stb)) := by
  rcases s with ⟨st, cs, dc, ack, r⟩
  rcases i with ⟨adr, cyc, stb, m⟩
  have h' : st = .WAITING := h
  subst h'
  cases cyc <;> cases stb <;> cases ack <;> simp [step]

theorem spi_c1_ack_handshake_witness :
    (⟨.WAITING, false, 23, true, 0⟩ : St).state = .WAITING ∧
    (step 0 ⟨.WAITING, false, 23, true, 0⟩ ⟨0, true, true, false⟩).ack =
      (true && (true && true)) :=
  ⟨rfl, spi_c1_ack_handshake 0 ⟨.WAITING, false, 23, true, 0⟩
    ⟨0, true, true, false⟩ rfl⟩

/-- C2: for every `start` and bus address, the command word has the fixed
read opcode `0x03` in its most-significant byte and the 24-bit-masked
offset device address in its lower three bytes, and fits in 32 bits. -/
theorem spi_c2_command_word (dstart adr : Nat) :
    spio dstart adr >>> 24 = 0x03 ∧
    spio dstart adr % 2 ^ 24 = (adr + dstart) % 2 ^ 24 ∧
    spio dstart adr < 2 ^ 32 := by
  have h := spio_split dstart adr
  have e24 : (2 : Nat) ^ 24 = 16777216 := by norm_num
  have hmlt : (adr + dstart) % 2 ^ 24 < 2 ^ 24 := Nat.mod_lt _ (by norm_num)
  refine ⟨?_, ?_, ?_⟩
  · rw [h, Nat.shiftRight_eq_div_pow]
    rw [e24] at hmlt ⊢
    omega
  · rw [h]
    rw [e24] at hmlt ⊢
    omega
  · rw [h]
    have e32 : (2 : Nat) ^ 32 = 4294967296 := by norm_num
    rw [e24] at hmlt ⊢
    rw [e32]
    omega

/-- C3: over the 32 `SPI_RX` ticks the simulated machine OR-accumulates one
sampled bit per tick into `dat_r`, MSB-first per byte across 4 bytes, ending
with the backing-store word at index `adr >> 2`; the counter takes the
values `dcSeq`, each of 0..31 exactly once. -/
theorem spi_c3_word_integrity (dstart : Nat) (data : List Nat) (adr : Nat)
    (cyc stb m cs ack : Bool) :
    (runSim dstart data 32 ⟨.RX, cs, 7, ack, 0⟩ ⟨adr, cyc, stb, m⟩).dat_r =
      memRead data (adr >>> 2) ∧
    (runSim dstart data 32 ⟨.RX, cs, 7, ack, 0⟩ ⟨adr, cyc, stb, m⟩).state = .WAITING ∧
    dcTrace dstart data 32 ⟨.RX, cs, 7, ack, 0⟩ ⟨adr, cyc, stb, m⟩ = dcSeq ∧
    ∀ k, k < 32 → dcSeq.count k = 1 := by
  refine ⟨rx_word dstart data adr cyc stb m cs ack, ?_,
    rx_trace_eq dstart data adr cyc stb m cs ack, by decide⟩
  rw [rx_run_eq]

theorem spi_c3_word_integrity_witness :
    (runSim 0 [5] 32 ⟨.RX, true, 7, false, 0⟩ ⟨0, true, true, false⟩).dat_r =
      memRead [5] (0 >>> 2) ∧ (3 < 32 ∧ dcSeq.count 3 = 1) :=
  ⟨(spi_c3_word_integrity 0 [5] 0 true true false true false).1,
   by decide,
   (spi_c3_word_integrity 0 [5] 0 true true false true false).2.2.2 3 (by decide)⟩

set_option maxRecDepth 100000 in
/-- C4 (counterexample): 33 ticks after a held request is presented in
`SPI_WAITING` the machine is already in `SPI_RX` with `dc = 7` — the 32
command bits take 32 ticks (one bit per tick), not 64 — and `ack` rises
after 65 ticks, not ≈ 98. -/
theorem spi_c4_counterexample :
    (runSim demoStart demoData 33 demoWait (demoReq 0)).state = .RX ∧
    (runSim demoStart demoData 33 demoWait (demoReq 0)).dc = 7 ∧
    (runSim demoStart demoData 64 demoWait (demoReq 0)).ack = false ∧
    (runSim demoStart demoData 65 demoWait (demoReq 0)).ack = true := by
  decide

/-- C4 (amended): for a request held stable from `SPI_WAITING`, the latency
is fixed and deterministic: 1 tick to recognize the request, 32 ticks to
shift the 32 command bits (one bit per tick), 32 ticks to receive the data
word; `ack` is low on all 65 ticks and is asserted (with the word in
`dat_r`) from the 66th tick. -/
theorem spi_c4_fixed_latency (dstart : Nat) (data : List Nat)
    (adr dcv r : Nat) (cs m : Bool) :
    (runSim dstart data 1 ⟨.WAITING, cs, dcv, false, r⟩ ⟨adr, true, true, m⟩).state
      = .TX ∧
    runSim dstart data 33 ⟨.WAITING, cs, dcv, false, r⟩ ⟨adr, true, true, m⟩ =
      ⟨.RX, true, 7, false, 0⟩ ∧
    runSim dstart data 65 ⟨.WAITING, cs, dcv, false, r⟩ ⟨adr, true, true, m⟩ =
      ⟨.WAITING, false, 23, true, memRead data (adr >>> 2)⟩ ∧
    ∀ k, k < 65 →
      (runSim dstart data k ⟨.WAITING, cs, dcv, false, r⟩ ⟨adr, true, true, m⟩).ack
        = false := by
  refine ⟨?_, tx_entry_run dstart data adr dcv r cs m,
    full_txn dstart data adr dcv r cs m,
    txn_ack_false dstart data adr dcv r cs m⟩
  rw [runSim_succ_eq, stepSim_wait_accept _ _ _ _ _ _ rfl rfl, runSim_zero_eq]

theorem spi_c4_fixed_latency_witness :
    runSim 7 [9] 65 ⟨.WAITING, false, 31, false, 0⟩ ⟨0, true, true, false⟩ =
      ⟨.WAITING, false, 23, true, memRead [9] (0 >>> 2)⟩ ∧
    (64 < 65 ∧
     (runSim 7 [9] 64 ⟨.WAITING, false, 31, false, 0⟩ ⟨0, true, true, false⟩).ack
       = false) :=
  ⟨(spi_c4_fixed_latency 7 [9] 0 31 0 false false).2.2.1,
   by decide,
   (spi_c4_fixed_latency 7 [9] 0 31 0 false false).2.2.2 64 (by decide)⟩

set_option maxRecDepth 100000 in
/-- C5: with `start = 0x200000` and the testbench image, bus address `0x00`
yields command word `0x03200000` and data `0x89ABCDEF`; address `0x0C`
yields command word `0x0320000C` and data `0xABACADAB` (the store is
indexed by the bus address divided by 4). -/
theorem spi_c5_example_scenario :
    spio demoStart 0x00 = 0x03200000 ∧
    spio demoStart 0x0C = 0x0320000C ∧
    (runSim demoStart demoData 65 demoWait (demoReq 0x00)).dat_r = 0x89ABCDEF ∧
    (runSim demoStart demoData 65 demoWait (demoReq 0x00)).ack = true ∧
    (runSim demoStart demoData 65
        (runSim demoStart demoData 1
          (runSim demoStart demoData 65 demoWait (demoReq 0x00)) demoIdle)
        (demoReq 0x0C)).dat_r = 0xABACADAB ∧
    (runSim demoStart demoData 65
        (runSim demoStart demoData 1
          (runSim demoStart demoData 65 demoWait (demoReq 0x00)) demoIdle)
        (demoReq 0x0C)).ack = true ∧
    (0x0C : Nat) >>> 2 = 3 ∧ demoData.getD 3 0 = 0xABACADAB := by
  decide

/-- C6: in `SPI_TX` the counter (initialized to 31 on acceptance)
decrements each tick and `mosi` is combinationally bit `dc` of the command
word; at `dc = 0` the machine loads `dc = 7`, clears `dat_r` and enters
`SPI_RX`; in `SPI_RX` the counter decrements, except at a byte boundary
(`dc % 8 = 0`) it is rewound by 15 when bits 3-4 are not `0b11`, and when
they are `0b11` the machine clears `cs`, loads `ack` from `cyc` and
returns to `SPI_WAITING`. -/
theorem spi_c6_tx_rx_counter (dstart : Nat) (s : St) (i : BusIn)
    (h32 : s.dc < 32) :
    (s.state = .WAITING → i.cyc = true → i.stb = true → s.ack = false →
      (step dstart s i).dc = 31 ∧ (step dstart s i).state = .TX) ∧
    (s.state = .TX →
      mosi dstart s i = (if (spio dstart i.adr).testBit s.dc then 1 else 0) ∧
      (s.dc ≠ 0 → (step dstart s i).dc = s.dc - 1 ∧ (step dstart s i).state = .TX) ∧
      (s.dc = 0 → step dstart s i = { s with dc := 7, dat_r := 0, state := .RX })) ∧
    (s.state = .RX →
      (s.dc % 8 ≠ 0 →
        (step dstart s i).dc = s.dc - 1 ∧ (step dstart s i).state = .RX) ∧
      (s.dc % 8 = 0 → (s.dc >>> 3) % 4 ≠ 3 →
        (step dstart s i).dc = s.dc + 15 ∧ (step dstart s i).state = .RX) ∧
      (s.dc % 8 = 0 → (s.dc >>> 3) % 4 = 3 →
        (step dstart s i).dc = s.dc - 1 ∧ (step dstart s i).cs = false ∧
        (step dstart s i).ack = i.cyc ∧ (step dstart s i).state = .WAITING)) := by
  rcases s with ⟨st, cs, dc, ack, r⟩
  have h32' : dc < 32 := h32
  refine ⟨?_, ?_, ?_⟩
  · intro h hc hs ha
    have h' : st = .WAITING := h
    subst h'
    have ha' : ack = false := ha
    subst ha'
    simp [step, hc, hs]
  · intro h
    have h' : st = .TX := h
    subst h'
    refine ⟨by simp [mosi, shift_mod_two_eq], ?_, ?_⟩
    · intro h0
      have h0' : dc ≠ 0 := h0
      have h1 : (dc == 0) = false := by simp [h0']
      simp [step, h1]
      omega
    · intro h0
      have h0' : dc = 0 := h0
      subst h0'
      simp [step]
  · intro h
    have h' : st = .RX := h
    subst h'
    refine ⟨?_, ?_, ?_⟩
    · intro h8
      have h8' : dc % 8 ≠ 0 := h8
      have h1 : (dc % 8 == 0) = false := by simp [h8']
      simp [step, h1]
      omega
    · intro h8 h34
      have h8' : dc % 8 = 0 := h8
      have h34' : (dc >>> 3) % 4 ≠ 3 := h34
      have h1 : (dc % 8 == 0) = true := by simp [h8']
      have h2 : ((dc >>> 3) % 4 == 3) = false := by simp [h34']
      have h3 : dc >>> 3 = dc / 8 := Nat.shiftRight_eq_div_pow dc 3
      rw [h3] at h34'
      simp [step, h1, h2]
      omega
    · intro h8 h34
      have h8' : dc % 8 = 0 := h8
      have h34' : (dc >>> 3) % 4 = 3 := h34
      have h1 : (dc % 8 == 0) = true := by simp [h8']
      have h2 : ((dc >>> 3) % 4 == 3) = true := by simp [h34']
      have h3 : dc >>> 3 = dc / 8 := Nat.shiftRight_eq_div_pow dc 3
      rw [h3] at h34'
      simp [step, h1, h2]
      omega

theorem spi_c6_tx_rx_counter_witness :
    ((31 : Nat) ≠ 0) ∧
    ((step 0 ⟨.TX, true, 31, false, 0⟩ ⟨0, true, true, false⟩).dc = 31 - 1 ∧
     (step 0 ⟨.TX, true, 31, false, 0⟩ ⟨0, true, true, false⟩).state = .TX) :=
  ⟨by decide,
   ((spi_c6_tx_rx_counter 0 ⟨.TX, true, 31, false, 0⟩ ⟨0, true, true, false⟩
      (by decide)).2.1 rfl).2.1 (by decide)⟩

/-- C7: in `SPI_POWERUP` the counter increments each tick while `mosi`
drives bit `7 - dc` of the opcode `0xAB` (MSB first, meaningful for
`dc ≤ 7`); for `8 ≤ dc ≤ 29` the machine clears `cs` and stays in
`SPI_POWERUP`; at `dc = 30` it clears `cs` and moves to `SPI_WAITING`. -/
theorem spi_c7_powerup (dstart : Nat) (s : St) (i : BusIn)
    (h : s.state = .POWERUP) (h32 : s.dc < 32) :
    (step dstart s i).dc = (s.dc + 1) % 32 ∧
    (s.dc ≤ 7 → mosi dstart s i = (if (0xAB : Nat).testBit (7 - s.dc) then 1 else 0)) ∧
    (8 ≤ s.dc → s.dc ≤ 29 →
      (step dstart s i).cs = false ∧ (step dstart s i).state = .POWERUP) ∧
    (s.dc = 30 →
      (step dstart s i).cs = false ∧ (step dstart s i).state = .WAITING) := by
  rcases s with ⟨st, cs, dc, ack, r⟩
  have h' : st = .POWERUP := h
  subst h'
  refine ⟨?_, ?_, ?_, ?_⟩
  · by_cases h30 : dc = 30
    · simp [step, h30]
    · have hb : (dc == 30) = false := by simp [h30]
      by_cases h8 : 8 ≤ dc <;> simp [step, hb, h8]
  · intro h7
    simp [mosi, shift_mod_two_eq]
  · intro h8 h29
    have h8' : 8 ≤ dc := h8
    have h29' : dc ≤ 29 := h29
    have hb : (dc == 30) = false := by
      simp only [beq_eq_false_iff_ne, ne_eq]
      omega
    simp [step, hb, h8']
  · intro h30
    have h30' : dc = 30 := h30
    subst h30'
    simp [step]

theorem spi_c7_powerup_witness :
    ((⟨.POWERUP, true, 30, false, 0⟩ : St).state = .POWERUP) ∧ ((30 : Nat) < 32) ∧
    ((step 0 ⟨.POWERUP, true, 30, false, 0⟩ ⟨0, false, false, false⟩).cs = false ∧
     (step 0 ⟨.POWERUP, true, 30, false, 0⟩ ⟨0, false, false, false⟩).state = .WAITING) :=
  ⟨rfl, by decide,
   (spi_c7_powerup 0 ⟨.POWERUP, true, 30, false, 0⟩ ⟨0, false, false, false⟩
      rfl (by decide)).2.2.2 rfl⟩

set_option maxRecDepth 100000 in
/-- C8 (counterexample): `SPI_WAITING` with `ack = true` is reachable (65
ticks after a request completes, with the lines still held); there a
malformed request (`cyc` without `stb`) leaves the FSM in `SPI_WAITING`
but clears the `ack` register, so the state does change. -/
theorem spi_c8_counterexample :
    (runSim demoStart demoData 65 demoWait (demoReq 0)).state = .WAITING ∧
    (runSim demoStart demoData 65 demoWait (demoReq 0)).ack = true ∧
    (step demoStart (runSim demoStart demoData 65 demoWait (demoReq 0))
        ⟨0, true, false, false⟩).state = .WAITING ∧
    (step demoStart (runSim demoStart demoData 65 demoWait (demoReq 0))
        ⟨0, true, false, false⟩).ack = false ∧
    step demoStart (runSim demoStart demoData 65 demoWait (demoReq 0))
        ⟨0, true, false, false⟩ ≠
      runSim demoStart demoData 65 demoWait (demoReq 0) := by
  decide

/-- C8 (amended): a malformed request (`stb` without `cyc` or `cyc`
without `stb`) presented in `SPI_WAITING` never causes a transition out of
`SPI_WAITING` and leaves `cs`, the counter and `dat_r` unchanged; the only
register that can change is `ack`, which is cleared
(`ack <= cyc & (ack & stb)`, line 97 — the normal ack release), so
whenever `ack` was already low the whole state is exactly unchanged; and
in `SPI_TX`/`SPI_RX` the request lines `cyc`/`stb` have no effect on `cs`,
the counter, `dat_r`, the FSM state or `mosi`. -/
theorem spi_c8_request_isolation (dstart : Nat) (s : St) (i : BusIn) :
    (s.state = .WAITING →
      (i.stb = true ∧ i.cyc = false) ∨ (i.cyc = true ∧ i.stb = false) →
      (step dstart s i).state = .WAITING ∧
      (step dstart s i).dc = s.dc ∧
      (step dstart s i).dat_r = s.dat_r ∧
      (step dstart s i).cs = false ∧
      (step dstart s i).ack = false ∧
      (s.cs = false → s.ack = false → step dstart s i = s)) ∧
    ((s.state = .TX ∨ s.state = .RX) → ∀ c₁ t₁ c₂ t₂ : Bool,
      (step dstart s ⟨i.adr, c₁, t₁, i.miso⟩).cs =
        (step dstart s ⟨i.adr, c₂, t₂, i.miso⟩).cs ∧
      (step dstart s ⟨i.adr, c₁, t₁, i.miso⟩).dc =
        (step dstart s ⟨i.adr, c₂, t₂, i.miso⟩).dc ∧
      (step dstart s ⟨i.adr, c₁, t₁, i.miso⟩).dat_r =
        (step dstart s ⟨i.adr, c₂, t₂, i.miso⟩).dat_r ∧
      (step dstart s ⟨i.adr, c₁, t₁, i.miso⟩).state =
        (step dstart s ⟨i.adr, c₂, t₂, i.miso⟩).state ∧
      mosi dstart s ⟨i.adr, c₁, t₁, i.miso⟩ =
        mosi dstart s ⟨i.adr, c₂, t₂, i.miso⟩) := by
  rcases s with ⟨st, cs, dc, ack, r⟩
  constructor
  · intro h hm
    have h' : st = .WAITING := h
    subst h'
    rcases i with ⟨adr, cyc, stb, m⟩
    rcases hm with ⟨h1, h2⟩ | ⟨h1, h2⟩
    · have h1' : stb = true := h1
      have h2' : cyc = false := h2
      subst h1'
      subst h2'
      refine ⟨rfl, rfl, rfl, rfl, by simp [step], ?_⟩
      intro hcs ha
      have hcs' : cs = false := hcs
      have ha' : ack = false := ha
      subst hcs'
      subst ha'
      simp [step]
    · have h1' : cyc = true := h1
      have h2' : stb = false := h2
      subst h1'
      subst h2'
      refine ⟨rfl, rfl, rfl, rfl, by simp [step], ?_⟩
      intro hcs ha
      have hcs' : cs = false := hcs
      have ha' : ack = false := ha
      subst hcs'
      subst ha'
      simp [step]
  · rintro (h | h) c₁ t₁ c₂ t₂
    · have h' : st = .TX := h
      subst h'
      by_cases h0 : dc = 0 <;> simp [step, mosi, h0]
    · have h' : st = .RX := h
      subst h'
      by_cases h8 : dc % 8 = 0
      · by_cases h34 : dc >>> 3 % 4 = 3 <;> simp [step, mosi, h8, h34]
      · simp [step, mosi, h8]

theorem spi_c8_request_isolation_witness :
    ((step 0 ⟨.WAITING, false, 31, true, 0⟩ ⟨0, true, false, false⟩).state =
        .WAITING ∧
     (step 0 ⟨.WAITING, false, 31, true, 0⟩ ⟨0, true, false, false⟩).dc = 31 ∧
     (step 0 ⟨.WAITING, false, 31, true, 0⟩ ⟨0, true, false, false⟩).ack = false) ∧
    step 0 ⟨.WAITING, false, 31, false, 0⟩ ⟨0, false, true, false⟩ =
      ⟨.WAITING, false, 31, false, 0⟩ :=
  ⟨by
    have h := (spi_c8_request_isolation 0 ⟨.WAITING, false, 31, true, 0⟩
      ⟨0, true, false, false⟩).1 rfl (Or.inr ⟨rfl, rfl⟩)
    exact ⟨h.1, h.2.1, h.2.2.2.2.1⟩,
   (spi_c8_request_isolation 0 ⟨.WAITING, false, 31, false, 0⟩
    ⟨0, false, true, false⟩).1 rfl (Or.inl ⟨rfl, rfl⟩) |>.2.2.2.2.2 rfl rfl⟩

/-- C9: once the machine is in `SPI_WAITING`, `SPI_TX` or `SPI_RX`, it
stays in that set forever, for every input sequence: `SPI_RESET` and
`SPI_POWERUP` are never re-entered. -/
theorem spi_c9_powerup_once (dstart : Nat) :
    ∀ (n : Nat) (ins : Nat → BusIn) (s : St),
    (s.state = .WAITING ∨ s.state = .TX ∨ s.state = .RX) →
    ((runSeq dstart ins n s).state = .WAITING ∨
     (runSeq dstart ins n s).state = .TX ∨
     (runSeq dstart ins n s).state = .RX) := by
  intro n
  induction n with
  | zero => intro ins s h; exact h
  | succ k ih =>
    intro ins s h
    rw [runSeq_succ_eq]
    exact ih _ _ (step_keeps_main dstart s (ins 0) h)

theorem spi_c9_powerup_once_witness :
    (runSeq 0 (fun _ => ⟨0, false, false, false⟩) 3
        ⟨.WAITING, false, 31, false, 0⟩).state = .WAITING ∨
    (runSeq 0 (fun _ => ⟨0, false, false, false⟩) 3
        ⟨.WAITING, false, 31, false, 0⟩).state = .TX ∨
    (runSeq 0 (fun _ => ⟨0, false, false, false⟩) 3
        ⟨.WAITING, false, 31, false, 0⟩).state = .RX :=
  spi_c9_powerup_once 0 3 (fun _ => ⟨0, false, false, false⟩)
    ⟨.WAITING, false, 31, false, 0⟩ (Or.inl rfl)

/-- C10: in `SPI_TX` the transmitted bit is recomputed combinationally each
tick from the address currently on the bus — bit `dc` of
`spio(current adr)`; the registered state evolution in `SPI_TX` ignores the
address entirely (no latch), and concretely two different addresses at the
same state give different `mosi` bits. -/
theorem spi_c10_adr_not_latched (dstart : Nat) (s : St) (i : BusIn)
    (h : s.state = .TX) :
    mosi dstart s i = (if (spio dstart i.adr).testBit s.dc then 1 else 0) ∧
    (∀ a₁ a₂ : Nat, step dstart s ⟨a₁, i.cyc, i.stb, i.miso⟩ =
        step dstart s ⟨a₂, i.cyc, i.stb, i.miso⟩) ∧
    mosi 0 ⟨.TX, true, 0, false, 0⟩ ⟨0, true, true, false⟩ = 0 ∧
    mosi 0 ⟨.TX, true, 0, false, 0⟩ ⟨1, true, true, false⟩ = 1 := by
  rcases s with ⟨st, cs, dc, ack, r⟩
  have h' : st = .TX := h
  subst h'
  refine ⟨by simp [mosi, shift_mod_two_eq], ?_, by decide, by decide⟩
  intro a₁ a₂
  simp [step]

theorem spi_c10_adr_not_latched_witness :
    (⟨.TX, true, 5, false, 0⟩ : St).state = .TX ∧
    mosi 3 ⟨.TX, true, 5, false, 0⟩ ⟨2, true, true, false⟩ =
      (if (spio 3 2).testBit 5 then 1 else 0) :=
  ⟨rfl, (spi_c10_adr_not_latched 3 ⟨.TX, true, 5, false, 0⟩
    ⟨2, true, true, false⟩ rfl).1⟩

end SpiRom

